import Mathlib

/-!
Verification development for the adaptive-learning knowledge pipeline
(`adaptive_learning_system.py` and `scheduled_data_loader.py`).

The Python source is shallowly embedded below.  Pure helpers become Lean
functions; the stateful objects (`AdaptiveLearningSystem`, `ScheduledDataLoader`)
become explicit state records threaded through the operations.  External
collaborators are modelled as the specification declares them:

* the ChromaDB vector index is an id-keyed association list with upsert-by-id
  semantics (spec section 6 lists the consumed capability as
  upsert(ids, documents, metadatas));
* the md5 hex digest (hashlib, an external library) is an arbitrary function
  parameter, so every theorem holds for the real digest in particular;
* wall-clock timestamps (datetime.now) are threaded as explicit parameters;
* durable file writes, which the source wraps in try/except blocks, are
  modelled with an explicit success flag; a failed write is logged and
  swallowed exactly as in the source.

Numeric scores (distances, confidences) are modelled as rationals.
-/

/-- Python str.strip character class for ASCII text (space, tab, newline,
carriage return, vertical tab, form feed). -/
def pyWhitespace (c : Char) : Bool :=
  c == ' ' || c == '\t' || c == '\n' || c == '\r' || c == '\x0b' || c == '\x0c'

/-- Embedding of Python str.strip(): drop leading and trailing whitespace. -/
def pyStrip (s : String) : String :=
  String.mk ((((s.toList.dropWhile pyWhitespace).reverse.dropWhile pyWhitespace).reverse))

/-- Embedding of Python str.lower() for the ASCII texts handled here. -/
def pyLower (s : String) : String :=
  String.mk (s.toList.map Char.toLower)

/-- Embedding of the Python substring test (needle in hay). -/
def containsSub (hay needle : String) : Bool :=
  hay.toList.tails.any (fun t => needle.toList.isPrefixOf t)

/-- Test whether any term of a keyword vocabulary occurs in the text,
mirroring any(term in combined for term in [...]). -/
def containsAny (hay : String) (terms : List String) : Bool :=
  terms.any (fun t => containsSub hay t)

/-- Keyword vocabulary of the human_error category (source line 182). -/
def humanErrorTerms : List String := ["human error", "hea", "error avoidance", "mistake"]

/-- Keyword vocabulary of the operations category (source line 186). -/
def operationsTerms : List String := ["operational", "process", "procedure", "workflow"]

/-- Keyword vocabulary of the executive category (source line 190). -/
def executiveTerms : List String := ["strategic", "executive", "board", "ceo", "leadership"]

/-- Keyword vocabulary of the financial category (source line 194). -/
def financialTerms : List String := ["financial", "cost", "savings", "revenue", "budget"]

/-- Keyword vocabulary of the dell_specific category (source line 198). -/
def dellTerms : List String :=
  ["dell", "fiscal year", "fy20", "fy21", "fy22", "fy23", "fy24", "fy25"]

/-- Keyword vocabulary of the analysis category (source line 202). -/
def analysisTerms : List String := ["trend", "pattern", "analysis", "insight"]

/-- Embedding of AdaptiveLearningSystem._categorize_qa_pair: the combined
lowercased question and answer text is tested against six fixed keyword
vocabularies; matching tags are collected in a fixed order and an empty
result defaults to the single catch-all tag. -/
def categorize_qa_pair (question answer : String) : List String :=
  let combined := pyLower question ++ " " ++ pyLower answer
  let categories :=
    (if containsAny combined humanErrorTerms then ["human_error"] else []) ++
    (if containsAny combined operationsTerms then ["operations"] else []) ++
    (if containsAny combined executiveTerms then ["executive"] else []) ++
    (if containsAny combined financialTerms then ["financial"] else []) ++
    (if containsAny combined dellTerms then ["dell_specific"] else []) ++
    (if containsAny combined analysisTerms then ["analysis"] else [])
  if categories.isEmpty then ["general"] else categories

/-- Predicate describing a question and answer whose combined text matches
none of the six keyword vocabularies of categorize_qa_pair. -/
def noKeywordMatch (question answer : String) : Bool :=
  let combined := pyLower question ++ " " ++ pyLower answer
  !containsAny combined humanErrorTerms &&
  !containsAny combined operationsTerms &&
  !containsAny combined executiveTerms &&
  !containsAny combined financialTerms &&
  !containsAny combined dellTerms &&
  !containsAny combined analysisTerms

/-- Match attempt at one position of the fiscal-year scan: either the
branch FY\s*(dddd) (case-insensitive; the lowercase alternative of the
source regex is subsumed by the IGNORECASE flag) or the branch
fiscal\s+year\s+(dddd).  Returns the four captured digit characters and the
rest of the text after the match. -/
def fyMatchAt (cs : List Char) : Option (List Char × List Char) :=
  match cs with
  | f :: y :: rest =>
    if f.toLower == 'f' && y.toLower == 'y' then
      let afterWs := rest.dropWhile pyWhitespace
      let ds := afterWs.take 4
      if ds.length == 4 && ds.all Char.isDigit then some (ds, afterWs.drop 4)
      else
        fiscalYearBranch cs
    else
      fiscalYearBranch cs
  | _ => none
where
  /-- The fiscal\s+year\s+(dddd) alternative. -/
  fiscalYearBranch (cs : List Char) : Option (List Char × List Char) :=
    match cs with
    | c1 :: c2 :: c3 :: c4 :: c5 :: c6 :: rest =>
      if [c1, c2, c3, c4, c5, c6].map Char.toLower == "fiscal".toList then
        let r1 := rest.dropWhile pyWhitespace
        if r1.length == rest.length then none
        else
          match r1 with
          | y1 :: y2 :: y3 :: y4 :: rest2 =>
            if [y1, y2, y3, y4].map Char.toLower == "year".toList then
              let r2 := rest2.dropWhile pyWhitespace
              if r2.length == rest2.length then none
              else
                let ds := r2.take 4
                if ds.length == 4 && ds.all Char.isDigit then some (ds, r2.drop 4)
                else none
            else none
          | _ => none
      else none
    | _ => none

/-- Fuel-indexed left-to-right non-overlapping scan implementing
re.findall for the fiscal-year pattern; the fuel starts at the text length
and bounds the recursion. -/
def fyScan : Nat → List Char → List String
  | 0, _ => []
  | _, [] => []
  | Nat.succ fuel, c :: cs =>
    match fyMatchAt (c :: cs) with
    | some (ds, rest) => String.mk ds :: fyScan fuel rest
    | none => fyScan fuel cs

/-- Embedding of AdaptiveLearningSystem._extract_fiscal_years: find all
fiscal-year mentions, put an FY prefix on each captured year, and
deduplicate.  The source materialises the set with list(set(...)), whose
iteration order is unspecified; deduplication order is therefore a free
modelling choice. -/
def extract_fiscal_years (text : String) : List String :=
  ((fyScan text.toList.length text.toList).map (fun y => "FY" ++ y)).dedup

/-- Value stored under a key of a Python Q&A dict: a string, or some value
of any other type (numbers, lists, None, ...), which the validator rejects
uniformly via its isinstance and truthiness checks. -/
inductive PyVal where
  | vstr (s : String)
  | vother
deriving DecidableEq, Repr

/-- One candidate record of an ingestion payload.  The source iterates over
arbitrary parsed JSON, so a candidate may fail to be a dict at all; a dict
candidate carries optional question, answer and source fields (absent key
= none). -/
inductive Cand where
  | notDict
  | mk (question answer : Option PyVal) (source : Option String)
deriving DecidableEq, Repr

/-- Question text of a candidate (used only after validation, which
guarantees the field is a string). -/
def candQ : Cand → String
  | .mk (some (.vstr s)) _ _ => s
  | _ => ""

/-- Answer text of a candidate (used only after validation). -/
def candA : Cand → String
  | .mk _ (some (.vstr s)) _ => s
  | _ => ""

/-- Source tag of a candidate, if present. -/
def candSrc : Cand → Option String
  | .mk _ _ s => s
  | .notDict => none

/-- Ingestion payload shapes distinguished by ingest_qa_json (source lines
77-102): a JSON string that fails to parse, a dict containing a qa_pairs
key (whose value may fail to be iterable: envelope none), a dict carrying
question and answer keys, any other dict, a top-level list, or a value of
any other type. -/
inductive Payload where
  | badstr
  | envelope (pairs : Option (List Cand))
  | singleDict (question answer : PyVal) (source : Option String)
  | otherDict
  | list (cands : List Cand)
  | otherVal
deriving DecidableEq, Repr

/-- Candidate records a payload contributes to the validation loop. -/
def candidatesOf : Payload → List Cand
  | .badstr => []
  | .envelope none => []
  | .envelope (some cs) => cs
  | .singleDict q a s => [Cand.mk (some q) (some a) s]
  | .otherDict => []
  | .list cs => cs
  | .otherVal => []

/-- Embedding of AdaptiveLearningSystem._validate_qa_pair: a candidate
passes when it is a dict whose question and answer keys hold truthy
strings, the stripped question has at least 5 characters and the stripped
answer at least 10. -/
def validate_qa_pair : Cand → Bool
  | .mk (some (.vstr q)) (some (.vstr a)) _ =>
    !(q == "") && !(a == "") &&
    decide (5 ≤ (pyStrip q).length) && decide (10 ≤ (pyStrip a).length)
  | _ => false

/-- A learned QAPair as produced by _enrich_qa_pair: the original fields
plus learning metadata. -/
structure QAPair where
  question : String
  answer : String
  learned_timestamp : String
  question_hash : String
  answer_length : Nat
  question_length : Nat
  categories : List String
  usage_count : Nat
  confidence_score : Rat
  source : String
  fiscal_years : List String
  last_used : Option String := none
deriving DecidableEq, Repr

/-- Embedding of AdaptiveLearningSystem._enrich_qa_pair.  The md5 hex
digest of the question text is an external library call, passed in as the
function md5; the creation timestamp is the parameter now. -/
def enrich_qa_pair (md5 : String → String) (now : String) (c : Cand) : QAPair :=
  let q := candQ c
  let a := candA c
  { question := q
    answer := a
    learned_timestamp := now
    question_hash := md5 q
    answer_length := a.length
    question_length := q.length
    categories := categorize_qa_pair q a
    usage_count := 0
    confidence_score := 1
    source := (candSrc c).getD "user_provided"
    fiscal_years := extract_fiscal_years (q ++ " " ++ a)
    last_used := none }

/-- Metadata record mirrored into the learned_qa vector-index collection
for one QAPair (source lines 257-264). -/
structure ChromaMeta where
  answer : String
  learned_timestamp : String
  categories : String
  fiscal_years : String
  source : String
  confidence_score : Rat
deriving DecidableEq, Repr

/-- One vector-index entry: the document text plus its metadata. -/
structure ChromaEntry where
  document : String
  meta : ChromaMeta
deriving DecidableEq, Repr

/-- Upsert into an id-keyed store, the Vector Index capability the
specification assigns to the external index (spec section 6): a present id
is overwritten in place, a fresh id is appended. -/
def upsertKV {α : Type} (store : List (String × α)) (key : String) (v : α) :
    List (String × α) :=
  if store.any (fun kv => kv.1 == key) then
    store.map (fun kv => if kv.1 == key then (key, v) else kv)
  else store ++ [(key, v)]

/-- State of one AdaptiveLearningSystem instance: the in-memory list, the
durable knowledge file contents, and the learned_qa index collection. -/
structure LearnState where
  learned_qa_pairs : List QAPair
  disk : List QAPair
  chroma : List (String × ChromaEntry)
deriving DecidableEq, Repr

/-- The freshly initialized learning state (empty store). -/
def LearnState.init : LearnState := ⟨[], [], []⟩

/-- Embedding of AdaptiveLearningSystem._save_knowledge: flush the
in-memory list to the durable file.  The source catches any write error
and only logs it, so a failed write (writeOk = false) leaves the file
untouched and never propagates. -/
def save_knowledge (writeOk : Bool) (st : LearnState) : LearnState :=
  if writeOk then { st with disk := st.learned_qa_pairs } else st

/-- Index metadata derived from a QAPair (source lines 257-264); list
fields are comma-joined strings there. -/
def chromaMetaOf (p : QAPair) : ChromaMeta :=
  { answer := p.answer
    learned_timestamp := p.learned_timestamp
    categories := String.intercalate "," p.categories
    fiscal_years := String.intercalate "," p.fiscal_years
    source := p.source
    confidence_score := p.confidence_score }

/-- Embedding of AdaptiveLearningSystem._add_to_chroma: each pair is
written to the learned_qa collection keyed by its question hash. -/
def add_to_chroma (pairs : List QAPair) (st : LearnState) : LearnState :=
  { st with
    chroma := pairs.foldl
      (fun s p => upsertKV s p.question_hash ⟨p.question, chromaMetaOf p⟩) st.chroma }

/-- Shared tail of ingest_qa_json (source lines 104-127): validate each
candidate, enrich the survivors, and on at least one survivor extend the
list, flush it, and mirror the new pairs into the index. -/
def ingestPairs (md5 : String → String) (now : String) (writeOk : Bool)
    (st : LearnState) (cands : List Cand) : Bool × LearnState :=
  let valid := (cands.filter validate_qa_pair).map (enrich_qa_pair md5 now)
  if valid.isEmpty then (false, st)
  else
    let st1 := { st with learned_qa_pairs := st.learned_qa_pairs ++ valid }
    let st2 := save_knowledge writeOk st1
    let st3 := add_to_chroma valid st2
    (true, st3)

/-- Embedding of AdaptiveLearningSystem.ingest_qa_json.  Payload shapes
that raise or are unrecognized return failure without touching the state
(the source catches every exception); recognized shapes run the shared
validation loop. -/
def ingest_qa_json (md5 : String → String) (now : String) (writeOk : Bool)
    (st : LearnState) (p : Payload) : Bool × LearnState :=
  match p with
  | .badstr => (false, st)
  | .otherDict => (false, st)
  | .otherVal => (false, st)
  | .envelope none => (false, st)
  | .envelope (some cs) => ingestPairs md5 now writeOk st cs
  | .singleDict q a s => ingestPairs md5 now writeOk st [Cand.mk (some q) (some a) s]
  | .list cs => ingestPairs md5 now writeOk st cs

/-- Stable insertion step of a descending sort by key: the new element is
placed before the first element whose key is less than or equal to its own,
so earlier list positions win ties. -/
def insertDescBy {α β : Type} [LinearOrder β] (key : α → β) (x : α) : List α → List α
  | [] => [x]
  | y :: ys => if key y ≤ key x then x :: y :: ys else y :: insertDescBy key x ys

/-- Stable descending sort by key, the behaviour of Python
list.sort(key=..., reverse=True): descending in the key, ties kept in
input order. -/
def sortDescBy {α β : Type} [LinearOrder β] (key : α → β) (l : List α) : List α :=
  l.foldr (insertDescBy key) []

/-- One raw nearest-neighbour hit as returned by the vector-index query:
document text, stored metadata, and a distance. -/
structure Hit where
  document : String
  meta : ChromaMeta
  distance : Rat
deriving DecidableEq, Repr

/-- One search result assembled by search_learned_knowledge (source lines
312-320). -/
structure Found where
  question : String
  answer : String
  confidence : Rat
  categories : List String
  fiscal_years : List String
  source : String
  learned_timestamp : String
deriving DecidableEq, Repr

/-- Distance-to-confidence conversion of the source (line 309). -/
def confOf (d : Rat) : Rat := max 0 (1 - d)

/-- Embedding of Python str.split(",") on the comma-joined metadata
strings. -/
def splitCommaAux : List Char → List Char → List String
  | [], acc => [String.mk acc.reverse]
  | c :: cs, acc =>
    if c == ',' then String.mk acc.reverse :: splitCommaAux cs []
    else splitCommaAux cs (c :: acc)

/-- Split a string at commas, Python str.split(",") semantics (an empty
input yields one empty field). -/
def splitComma (s : String) : List String := splitCommaAux s.toList []

/-- Search-result record built from one accepted hit. -/
def foundOfHit (h : Hit) (conf : Rat) : Found :=
  { question := h.document
    answer := h.meta.answer
    confidence := conf
    categories := splitComma h.meta.categories
    fiscal_years := splitComma h.meta.fiscal_years
    source := h.meta.source
    learned_timestamp := h.meta.learned_timestamp }

/-- The relevant-pairs loop of search_learned_knowledge (source lines
303-320): convert each distance to a confidence and keep, in index-returned
order, exactly the hits whose confidence reaches the threshold. -/
def searchCandidates (threshold : Rat) (hits : List Hit) : List Found :=
  hits.filterMap (fun h =>
    let conf := confOf h.distance
    if threshold ≤ conf then some (foundOfHit h conf) else none)

/-- Embedding of AdaptiveLearningSystem.search_learned_knowledge over the
hits the external index returned for the query: convert each distance to a
confidence, drop hits below the threshold, and sort the survivors by
confidence descending with the stable sort. -/
def search_learned_knowledge (threshold : Rat) (hits : List Hit) : List Found :=
  sortDescBy (fun f => f.confidence) (searchCandidates threshold hits)

/-- Percent rendering of a confidence for the answer suffix.  Python
formats with round-half-to-even; exact half percents are immaterial to
every claim, so the Mathlib round is used. -/
def pctStr (c : Rat) : String := (round (c * 100) : Int).repr ++ "%"

/-- Increment the usage count of the first stored pair carrying the given
question hash and stamp its last use (source lines 363-369). -/
def bumpFirstUsage (hash now : String) : List QAPair → List QAPair
  | [] => []
  | p :: ps =>
    if p.question_hash == hash then
      { p with usage_count := p.usage_count + 1, last_used := some now } :: ps
    else p :: bumpFirstUsage hash now ps

/-- Embedding of AdaptiveLearningSystem._update_usage_count. -/
def update_usage_count (md5 : String → String) (now : String) (wOk : Bool)
    (question : String) (st : LearnState) : LearnState :=
  save_knowledge wOk
    { st with learned_qa_pairs := bumpFirstUsage (md5 question) now st.learned_qa_pairs }

/-- Embedding of AdaptiveLearningSystem.get_learned_answer: search with
the same threshold, and return the top answer (annotated with a confidence
suffix, with the usage bookkeeping applied) only when its confidence
reaches the threshold. -/
def get_learned_answer (md5 : String → String) (now : String) (wOk : Bool)
    (threshold : Rat) (hits : List Hit) (st : LearnState) : Option String × LearnState :=
  match search_learned_knowledge threshold hits with
  | [] => (none, st)
  | top :: _ =>
    if threshold ≤ top.confidence then
      (some (top.answer ++ "\n\n*[Learned Response - Confidence: " ++ pctStr top.confidence ++ "]*"),
       update_usage_count md5 now wOk top.question st)
    else (none, st)

/-- One captured chat exchange (scheduled_data_loader.py lines 298-304). -/
structure Interaction where
  timestamp : String
  user_query : String
  bot_response : String
  processed : Bool
  learned_timestamp : Option String := none
deriving DecidableEq, Repr

/-- The QAPair-shaped ingestion payload built from an interaction
(scheduled_data_loader.py lines 352-358): query becomes the question, the
response the answer, with the chat_interaction provenance tag. -/
def interactionPayload (i : Interaction) : Payload :=
  Payload.singleDict (.vstr i.user_query) (.vstr i.bot_response) (some "chat_interaction")

/-- Embedding of ScheduledDataLoader.process_chat_interactions: walk the
interaction log in order, feed every unprocessed record to ingest, and
mark a record processed exactly when ingest reported success for it. -/
def process_chat_interactions (md5 : String → String) (now : String) (wOk : Bool) :
    LearnState → List Interaction → LearnState × List Interaction
  | ls, [] => (ls, [])
  | ls, i :: rest =>
    if i.processed then
      let r := process_chat_interactions md5 now wOk ls rest
      (r.1, i :: r.2)
    else
      let res := ingest_qa_json md5 now wOk ls (interactionPayload i)
      let iNew := if res.1 then { i with processed := true, learned_timestamp := some now } else i
      let r := process_chat_interactions md5 now wOk res.2 rest
      (r.1, iNew :: r.2)

/-- One spreadsheet file sitting in the inbox: its base name, modification
time, whether pandas can parse it, and its parsed rows.  A row is a list
of (column, cell) entries where none models a missing (NaN) cell. -/
structure ExcelFile where
  name : String
  mtime : Int
  parseOk : Bool
  rows : List (List (String × Option String))
deriving DecidableEq, Repr

/-- One index record produced from a spreadsheet row. -/
structure HeEntry where
  document : String
  meta : List (String × String)
deriving DecidableEq, Repr

/-- One entry of the backup folder: a plain file, or a directory carrying
its own inner files (the snapshot layout written by the external index is
not interpreted further). -/
inductive FsNode where
  | file (name : String) (mtime : Int)
  | dir (name : String) (mtime : Int) (contents : List (String × Int))
deriving DecidableEq, Repr

/-- Combined state of the ScheduledDataLoader: the spreadsheet inbox, the
human-error index collection, the backup folder, the count of logged
source-read errors, and the owned learning system with its interaction
log. -/
structure SchedState where
  inbox : List ExcelFile
  heStore : List (String × HeEntry)
  backupNodes : List FsNode
  srcErrors : Nat
  learning : LearnState
  interactions : List Interaction
deriving DecidableEq, Repr

/-- Document text of one row (source line 179): the non-empty cells joined
as column: value fragments. -/
def rowDoc (row : List (String × Option String)) : String :=
  String.intercalate " | " (row.filterMap (fun cv => cv.2.map (fun v => cv.1 ++ ": " ++ v)))

/-- Normalized column name (source line 186): lowercase, spaces replaced
by underscores. -/
def normCol (c : String) : String :=
  String.mk ((c.toList.map Char.toLower).map (fun ch => if ch == ' ' then '_' else ch))

/-- Metadata of one row (source lines 183-191): the non-empty cells under
normalized column names plus the provenance fields. -/
def rowMeta (fileName now : String) (row : List (String × Option String)) :
    List (String × String) :=
  (row.filterMap (fun cv => cv.2.map (fun v => (normCol cv.1, v)))) ++
    [("source", "excel_import"), ("file_name", fileName), ("loaded_timestamp", now)]

/-- File-name sanitization of the row-id scheme (source line 196): every
dot replaced by an underscore. -/
def sanitizeName (s : String) : String :=
  String.mk (s.toList.map (fun c => if c == '.' then '_' else c))

/-- Row id of the ingestion adapter (source line 197): sanitized file name
plus decimal row index under a fixed lead. -/
def makeRowId (fileName : String) (idx : Nat) : String :=
  "excel_" ++ sanitizeName fileName ++ "_" ++ Nat.repr idx

/-- Commit the rows of one file into the index, one upsert per row with
its generated id, starting from a given row index.  The source batches the
writes per 100 rows, which only affects logging, not the final store. -/
def commitRows (fileName now : String) :
    Nat → List (List (String × Option String)) → List (String × HeEntry) →
      List (String × HeEntry)
  | _, [], s => s
  | i, r :: rs, s =>
    commitRows fileName now (i + 1) rs
      (upsertKV s (makeRowId fileName i) ⟨rowDoc r, rowMeta fileName now r⟩)

/-- Embedding of ScheduledDataLoader.load_excel_to_chroma: a file pandas
cannot parse is logged as one source-read error and contributes nothing;
otherwise every row is committed and the row count returned. -/
def load_excel_to_chroma (now : String) (st : SchedState) (f : ExcelFile) :
    Nat × SchedState :=
  if f.parseOk then
    (f.rows.length, { st with heStore := commitRows f.name now 0 f.rows st.heStore })
  else (0, { st with srcErrors := st.srcErrors + 1 })

/-- Embedding of os.path.splitext for ordinary names: split at the last
dot (the hidden-file special case never arises for spreadsheet names). -/
def splitExt (s : String) : String × String :=
  let cs := s.toList
  let revExt := cs.reverse.takeWhile (fun c => !(c == '.'))
  if revExt.length == cs.length then (s, "")
  else
    (String.mk (cs.take (cs.length - revExt.length - 1)),
     String.mk (cs.drop (cs.length - revExt.length - 1)))

/-- Suffix test on file names, the effect of the glob patterns. -/
def nameEndsWith (s suffix : String) : Bool := suffix.toList.isSuffixOf s.toList

/-- Embedding of ScheduledDataLoader.find_excel_files: collect the inbox
files matching the three spreadsheet patterns in pattern order, then sort
newest-modified-first (a stable descending sort on modification time, the
behaviour of list.sort with reverse=True). -/
def find_excel_files (inbox : List ExcelFile) : List ExcelFile :=
  sortDescBy (fun f => f.mtime)
    (inbox.filter (fun f => nameEndsWith f.name ".xlsx") ++
     inbox.filter (fun f => nameEndsWith f.name ".xls") ++
     inbox.filter (fun f => nameEndsWith f.name ".xlsm"))

/-- Embedding of ScheduledDataLoader.archive_processed_file: the file
leaves the inbox and lands in the backup folder under a timestamped
name. -/
def archive_processed_file (now : String) (nowT : Int) (st : SchedState)
    (f : ExcelFile) : SchedState :=
  let pe := splitExt f.name
  { st with
    inbox := st.inbox.filter (fun g => !(g.name == f.name))
    backupNodes := st.backupNodes ++ [FsNode.file (pe.1 ++ "_processed_" ++ now ++ pe.2) nowT] }

/-- Embedding of ScheduledDataLoader.backup_chroma_db: a timestamped
directory snapshot of the index tree is added to the backup folder (its
inner layout belongs to the external index and is not interpreted). -/
def backup_chroma_db (now : String) (nowT : Int) (st : SchedState) : SchedState :=
  { st with backupNodes := st.backupNodes ++ [FsNode.dir ("chroma_backup_" ++ now) nowT []] }

/-- The hourly job run from the scheduler state. -/
def process_chat_interactions_sched (md5 : String → String) (now : String) (wOk : Bool)
    (st : SchedState) : SchedState :=
  let r := process_chat_interactions md5 now wOk st.learning st.interactions
  { st with learning := r.1, interactions := r.2 }

/-- Embedding of ScheduledDataLoader.daily_data_load_job: discover the
spreadsheet files (returning early when none), snapshot the index, then
load and archive each file in turn (archiving happens for every attempted
file, parse failures included), and finally run the interaction-learning
job inline. -/
def daily_data_load_job (md5 : String → String) (now : String) (nowT : Int) (wOk : Bool)
    (st : SchedState) : SchedState :=
  let files := find_excel_files st.inbox
  if files.isEmpty then st
  else
    let st1 := backup_chroma_db now nowT st
    let st2 := files.foldl
      (fun s f => archive_processed_file now nowT (load_excel_to_chroma now s f).2 f) st1
    process_chat_interactions_sched md5 now wOk st2

/-- Embedding of ScheduledDataLoader.cleanup_old_backups: scan only the
top level of the backup folder, and remove exactly the plain files whose
modification time lies before the retention cutoff. -/
def cleanup_old_backups (days : Int) (nowT : Int) (nodes : List FsNode) : List FsNode :=
  let cutoff := nowT - days * 86400
  nodes.filter (fun n =>
    match n with
    | .file _ m => !decide (m < cutoff)
    | .dir _ _ _ => true)

/-- Concrete hit metadata used by witness statements below. -/
def demoMeta : ChromaMeta :=
  { answer := "A misconfigured failover script caused a 40-minute outage."
    learned_timestamp := "2024-01-15T10:00:00"
    categories := "general"
    fiscal_years := ""
    source := "user_provided"
    confidence_score := 1 }

/-- Concrete exact-match hit (distance zero) used by witness statements. -/
def demoHit : Hit :=
  { document := "What caused the Q1 outage?", meta := demoMeta, distance := 0 }

/-- The search result the demo hit produces at distance zero. -/
def demoFound : Found := foundOfHit demoHit 1

/-- The rejection condition named by the specification for C6: a record
missing the question or the answer field, or whose question text is
shorter than 5 characters, or whose answer text is shorter than 10
characters. -/
def specRejected : Cand → Bool
  | .notDict => false
  | .mk q a _ =>
    (match q with | none => true | some _ => false) ||
    (match a with | none => true | some _ => false) ||
    (match q with | some (.vstr s) => decide (s.length < 5) | _ => false) ||
    (match a with | some (.vstr s) => decide (s.length < 10) | _ => false)

/-- The state after ingesting the same payload twice in a row with
successful durable writes. -/
def reingest (md5 : String → String) (n1 n2 : String) (st : LearnState) (p : Payload) :
    LearnState :=
  (ingest_qa_json md5 n2 true (ingest_qa_json md5 n1 true st p).2 p).2

/-- An already-processed interaction used by the C7 witness. -/
def demoDone : Interaction :=
  { timestamp := "t0", user_query := "What is HEA about?",
    bot_response := "Human error avoidance.", processed := true,
    learned_timestamp := some "t0" }

/-- An unprocessed interaction with a 5-character response used by the C7
witness. -/
def demoShort : Interaction :=
  { timestamp := "t0", user_query := "What is HEA about?",
    bot_response := "short", processed := false, learned_timestamp := none }

/-- An aged plain backup file used by the C10 witness. -/
def oldFileNode : FsNode := FsNode.file "learned_knowledge_backup_old.json" 0

/-- A snapshot directory with one inner file used by the C10 witness. -/
def snapDirNode : FsNode := FsNode.dir "chroma_backup_20240101" 0 [("chroma.sqlite3", 0)]

/-- Concrete newest inbox file (parses) for the C2 statements. -/
def fileA : ExcelFile := ⟨"alpha.xlsx", 3, true, [[("problem", some "p1")]]⟩

/-- Concrete malformed middle inbox file for the C2 statements. -/
def fileB : ExcelFile := ⟨"beta.xlsx", 2, false, []⟩

/-- Concrete oldest inbox file (parses) for the C2 statements. -/
def fileC : ExcelFile := ⟨"gamma.xlsx", 1, true, [[("problem", some "p3")]]⟩

/-- Scheduler state whose inbox holds exactly the three demo files. -/
def inboxState : SchedState := ⟨[fileA, fileB, fileC], [], [], 0, LearnState.init, []⟩

example :
    validate_qa_pair (Cand.mk (some (.vstr "abc")) (some (.vstr "long enough answer")) none)
      = false := by decide

example :
    validate_qa_pair
      (Cand.mk (some (.vstr "What is HEA?")) (some (.vstr "long enough answer")) none)
      = true := by decide

example : categorize_qa_pair "hello" "nothing special" = ["general"] := by decide

example :
    categorize_qa_pair "What were dell FY2024 costs?" "Costs fell in fiscal year 2024."
      = ["financial", "dell_specific"] := by decide

example : extract_fiscal_years "FY 2024 and fiscal year 2023 and FY2024" = ["FY2023", "FY2024"]
  := by decide

/-! ## Properties of the stable descending sort -/

theorem insertDescBy_perm {α β : Type} [LinearOrder β] (key : α → β) (x : α) (l : List α) :
    (insertDescBy key x l).Perm (x :: l) := by
  induction l with
  | nil => simp [insertDescBy]
  | cons y ys ih =>
    by_cases h : key y ≤ key x
    · simp [insertDescBy, h]
    · simp only [insertDescBy, if_neg h]
      exact (ih.cons y).trans (List.Perm.swap x y ys)

theorem sortDescBy_perm {α β : Type} [LinearOrder β] (key : α → β) (l : List α) :
    (sortDescBy key l).Perm l := by
  induction l with
  | nil => simp [sortDescBy]
  | cons a l ih =>
    exact (insertDescBy_perm key a (sortDescBy key l)).trans (ih.cons a)

theorem insertDescBy_pairwise {α β : Type} [LinearOrder β] {key : α → β} {x : α}
    {l : List α} (h : l.Pairwise (fun a b => key b ≤ key a)) :
    (insertDescBy key x l).Pairwise (fun a b => key b ≤ key a) := by
  induction l with
  | nil => simp [insertDescBy]
  | cons y ys ih =>
    rcases List.pairwise_cons.mp h with ⟨hy, hys⟩
    by_cases hc : key y ≤ key x
    · simp only [insertDescBy, if_pos hc, List.pairwise_cons]
      refine ⟨?_, hy, hys⟩
      intro z hz
      rcases List.mem_cons.mp hz with rfl | hz
      · exact hc
      · exact le_trans (hy z hz) hc
    · simp only [insertDescBy, if_neg hc, List.pairwise_cons]
      refine ⟨?_, ih hys⟩
      intro z hz
      rcases List.mem_cons.mp ((insertDescBy_perm key x ys).mem_iff.mp hz) with rfl | hz
      · exact le_of_lt (lt_of_not_le hc)
      · exact hy z hz

theorem sortDescBy_sorted {α β : Type} [LinearOrder β] (key : α → β) (l : List α) :
    (sortDescBy key l).Pairwise (fun a b => key b ≤ key a) := by
  induction l with
  | nil => simp [sortDescBy]
  | cons a l ih => exact insertDescBy_pairwise ih

theorem insertDescBy_filter_eq {α β : Type} [LinearOrder β] (key : α → β) (x : α)
    (l : List α) (c : β) :
    (insertDescBy key x l).filter (fun z => decide (key z = c)) =
      if key x = c then x :: l.filter (fun z => decide (key z = c))
      else l.filter (fun z => decide (key z = c)) := by
  induction l with
  | nil => by_cases h : key x = c <;> simp [insertDescBy, h]
  | cons y ys ih =>
    by_cases hc : key y ≤ key x
    · rw [insertDescBy, if_pos hc]
      by_cases hx : key x = c <;>
        by_cases hy : key y = c <;>
          simp [List.filter_cons, hx, hy]
    · rw [insertDescBy, if_neg hc]
      have hlt : key x < key y := lt_of_not_le hc
      by_cases hx : key x = c
      · have hy : ¬ key y = c := by
          intro h
          rw [← hx] at h
          exact absurd h (ne_of_gt hlt)
        simp [List.filter_cons, hx, hy, ih]
      · by_cases hy : key y = c <;>
          simp [List.filter_cons, hx, hy, ih]

theorem sortDescBy_filter_eq {α β : Type} [LinearOrder β] (key : α → β) (l : List α)
    (c : β) :
    (sortDescBy key l).filter (fun z => decide (key z = c)) =
      l.filter (fun z => decide (key z = c)) := by
  induction l with
  | nil => simp [sortDescBy]
  | cons a l ih =>
    have hstep := insertDescBy_filter_eq key a (sortDescBy key l) c
    by_cases ha : key a = c <;>
      simp_all [sortDescBy, List.filter_cons, ha]

/-! ## Search and answer-gate lemmas -/

theorem confOf_eq (d : Rat) : confOf d = max 0 (1 - d) := rfl

theorem mem_searchCandidates {threshold : Rat} {hits : List Hit} {f : Found}
    (hf : f ∈ searchCandidates threshold hits) :
    threshold ≤ f.confidence ∧
      ∃ h ∈ hits, f = foundOfHit h (confOf h.distance) := by
  rcases List.mem_filterMap.mp hf with ⟨h, hh, heq⟩
  dsimp only at heq
  by_cases hc : threshold ≤ confOf h.distance
  · rw [if_pos hc] at heq
    cases heq
    exact ⟨hc, h, hh, rfl⟩
  · rw [if_neg hc] at heq
    exact Option.noConfusion heq

theorem searchCandidates_eq_nil_iff {threshold : Rat} {hits : List Hit} :
    searchCandidates threshold hits = [] ↔
      ∀ h ∈ hits, ¬ threshold ≤ confOf h.distance := by
  unfold searchCandidates
  rw [List.filterMap_eq_nil_iff]
  constructor
  · intro hall h hh hle
    have hthis := hall h hh
    dsimp only at hthis
    rw [if_pos hle] at hthis
    exact Option.noConfusion hthis
  · intro hall h hh
    dsimp only
    rw [if_neg (hall h hh)]

/-- C4: for every query, search_learned_knowledge converts each
index-returned distance to confidence via confidence = max(0, 1 - distance),
drops every result whose confidence is below the confidence threshold, and
returns the remainder sorted descending by confidence with ties broken by
index-returned order: the result is a permutation of the
kept-in-index-order candidates, every returned confidence is the converted
distance of a hit and reaches the threshold, the result is sorted
descending, and at each fixed confidence value the result lists exactly
the candidates in their original order (stability). -/
theorem c4_search_result_construction (threshold : Rat) (hits : List Hit) :
    (search_learned_knowledge threshold hits).Perm (searchCandidates threshold hits) ∧
    (∀ f ∈ search_learned_knowledge threshold hits,
        threshold ≤ f.confidence ∧
          ∃ h ∈ hits, f = foundOfHit h (max 0 (1 - h.distance))) ∧
    (search_learned_knowledge threshold hits).Pairwise
      (fun a b => b.confidence ≤ a.confidence) ∧
    (∀ c : Rat,
        (search_learned_knowledge threshold hits).filter
            (fun z => decide (z.confidence = c)) =
          (searchCandidates threshold hits).filter
            (fun z => decide (z.confidence = c))) := by
  refine ⟨sortDescBy_perm _ _, ?_, sortDescBy_sorted _ _, fun c => sortDescBy_filter_eq _ _ c⟩
  intro f hf
  have hf' : f ∈ searchCandidates threshold hits :=
    (sortDescBy_perm (fun f : Found => f.confidence)
      (searchCandidates threshold hits)).mem_iff.mp hf
  rcases mem_searchCandidates hf' with ⟨hle, h, hh, hfe⟩
  exact ⟨hle, h, hh, hfe⟩

theorem confOf_zero : confOf 0 = 1 := by norm_num [confOf]

theorem searchCandidates_demo : searchCandidates 1 [demoHit] = [demoFound] := by
  simp [searchCandidates, demoHit, demoFound, confOf_zero]

theorem search_demo : search_learned_knowledge 1 [demoHit] = [demoFound] := by
  simp [search_learned_knowledge, searchCandidates_demo, sortDescBy, insertDescBy]

/-- Witness for C4 at a concrete input: the single exact-match result is
returned with confidence 1 and stems from the hit by the distance
conversion. -/
theorem c4_search_result_construction_witness :
    1 ≤ demoFound.confidence ∧
      ∃ h ∈ [demoHit], demoFound = foundOfHit h (max 0 (1 - h.distance)) :=
  (c4_search_result_construction 1 [demoHit]).2.1 demoFound
    (by rw [search_demo]; exact List.mem_singleton.mpr rfl)

/-- C5: get_learned_answer returns an answer exactly when some returned
hit converts to a confidence reaching the threshold; in particular a best
confidence exactly equal to the threshold is accepted and a best
confidence below it yields none. -/
theorem c5_threshold_gate (md5 : String → String) (now : String) (wOk : Bool)
    (threshold : Rat) (hits : List Hit) (st : LearnState) :
    (get_learned_answer md5 now wOk threshold hits st).1.isSome = true ↔
      ∃ h ∈ hits, threshold ≤ max 0 (1 - h.distance) := by
  unfold get_learned_answer
  cases hs : search_learned_knowledge threshold hits with
  | nil =>
    have hnil : searchCandidates threshold hits = [] := by
      have hp := sortDescBy_perm (fun f : Found => f.confidence)
        (searchCandidates threshold hits)
      unfold search_learned_knowledge at hs
      rw [hs] at hp
      exact List.nil_perm.mp hp
    simp only [Option.isSome_none, Bool.false_eq_true, false_iff]
    intro hex
    rcases hex with ⟨h, hh, hle⟩
    exact (searchCandidates_eq_nil_iff.mp hnil h hh) hle
  | cons top rest =>
    have hmem : top ∈ searchCandidates threshold hits := by
      have hp := sortDescBy_perm (fun f : Found => f.confidence)
        (searchCandidates threshold hits)
      unfold search_learned_knowledge at hs
      rw [hs] at hp
      exact hp.mem_iff.mp (List.mem_cons_self top rest)
    rcases mem_searchCandidates hmem with ⟨htop, h, hh, hfe⟩
    dsimp only
    rw [if_pos htop]
    simp only [Option.isSome_some, true_iff]
    refine ⟨h, hh, ?_⟩
    have : top.confidence = confOf h.distance := by rw [hfe]; rfl
    rw [← confOf_eq, ← this]
    exact htop

/-- Witness for C5 at a concrete input (the statement of the gate theorem
instantiated at an exact-match hit and threshold one). -/
theorem c5_threshold_gate_witness :
    (get_learned_answer (fun s => s) "t" true 1 [demoHit] LearnState.init).1.isSome = true ↔
      ∃ h ∈ [demoHit], (1 : Rat) ≤ max 0 (1 - h.distance) :=
  c5_threshold_gate (fun s => s) "t" true 1 [demoHit] LearnState.init

/-! ## Ingestion lemmas -/

theorem ingest_eq_ingestPairs (md5 : String → String) (now : String) (wOk : Bool)
    (st : LearnState) (p : Payload) :
    ingest_qa_json md5 now wOk st p = ingestPairs md5 now wOk st (candidatesOf p) := by
  cases p with
  | envelope op => cases op <;> rfl
  | _ => rfl

theorem ingestPairs_of_none_valid {md5 : String → String} {now : String} {wOk : Bool}
    {st : LearnState} {cs : List Cand} (h : cs.filter validate_qa_pair = []) :
    ingestPairs md5 now wOk st cs = (false, st) := by
  unfold ingestPairs
  rw [h]
  rfl

theorem ingestPairs_of_some_valid {md5 : String → String} {now : String} {wOk : Bool}
    {st : LearnState} {cs : List Cand} (h : cs.filter validate_qa_pair ≠ []) :
    ingestPairs md5 now wOk st cs =
      (true,
        add_to_chroma ((cs.filter validate_qa_pair).map (enrich_qa_pair md5 now))
          (save_knowledge wOk
            { st with
              learned_qa_pairs :=
                st.learned_qa_pairs ++
                  (cs.filter validate_qa_pair).map (enrich_qa_pair md5 now) })) := by
  unfold ingestPairs
  have hne : (((cs.filter validate_qa_pair).map (enrich_qa_pair md5 now)).isEmpty) = false := by
    rw [List.isEmpty_eq_false]
    intro hmap
    exact h (List.map_eq_nil_iff.mp hmap)
  dsimp only
  rw [hne]
  rfl

/-- C3: ingest_qa_json returns failure only if zero records validated (a
durable-write error, which the source catches and logs, never changes the
result since the outcome is the same for both values of the write flag);
when it fails the state is untouched, and when at least one record
validates it returns success with exactly the valid subset appended to the
list and mirrored into the index. -/
theorem c3_failure_condition (md5 : String → String) (now : String) (wOk : Bool)
    (st : LearnState) (p : Payload) :
    ((ingest_qa_json md5 now wOk st p).1 = false →
        (candidatesOf p).filter validate_qa_pair = [] ∧
          ingest_qa_json md5 now wOk st p = (false, st)) ∧
    ((candidatesOf p).filter validate_qa_pair ≠ [] →
        (ingest_qa_json md5 now wOk st p).1 = true ∧
          (ingest_qa_json md5 now wOk st p).2.learned_qa_pairs =
            st.learned_qa_pairs ++
              ((candidatesOf p).filter validate_qa_pair).map (enrich_qa_pair md5 now) ∧
          (ingest_qa_json md5 now wOk st p).2.chroma =
            (((candidatesOf p).filter validate_qa_pair).map (enrich_qa_pair md5 now)).foldl
              (fun s q => upsertKV s q.question_hash ⟨q.question, chromaMetaOf q⟩)
              st.chroma) := by
  rw [ingest_eq_ingestPairs]
  constructor
  · intro hfail
    by_cases h : (candidatesOf p).filter validate_qa_pair = []
    · exact ⟨h, ingestPairs_of_none_valid h⟩
    · rw [ingestPairs_of_some_valid h] at hfail
      exact absurd hfail (by simp)
  · intro h
    rw [ingestPairs_of_some_valid h]
    refine ⟨rfl, ?_, ?_⟩
    · cases wOk <;> rfl
    · cases wOk <;> rfl

/-- Witness for C3 at concrete inputs: a payload with one valid and one
invalid record succeeds, applying exactly the valid record; an
unrecognized payload fails with the state untouched. -/
theorem c3_failure_condition_witness :
    ((candidatesOf Payload.otherDict).filter validate_qa_pair = [] ∧
      ingest_qa_json (fun s => s) "t" true LearnState.init Payload.otherDict =
        (false, LearnState.init)) ∧
    ((ingest_qa_json (fun s => s) "t" true LearnState.init
          (Payload.list [Cand.mk (some (.vstr "abc")) (some (.vstr "too short")) none,
            Cand.mk (some (.vstr "What is HEA?")) (some (.vstr "Human error avoidance.")) none])).1
        = true) :=
  ⟨(c3_failure_condition (fun s => s) "t" true LearnState.init Payload.otherDict).1 (by decide),
   ((c3_failure_condition (fun s => s) "t" true LearnState.init
      (Payload.list [Cand.mk (some (.vstr "abc")) (some (.vstr "too short")) none,
        Cand.mk (some (.vstr "What is HEA?")) (some (.vstr "Human error avoidance.")) none])).2
      (by decide)).1⟩

/-! ## Categorization -/

theorem ite_default_ne_nil (l : List String) :
    (if l.isEmpty = true then ["general"] else l) ≠ [] := by
  by_cases h : l.isEmpty = true
  · simp [h]
  · rw [if_neg h]
    intro hnil
    rw [hnil] at h
    exact h rfl

/-- C9: categorization is a pure function of the question and answer texts
(equal inputs give equal category sets, independent of any state), the
category list is never empty, and zero keyword matches yield exactly the
default general tag. -/
theorem c9_categorization_deterministic_nonempty (question answer : String) :
    categorize_qa_pair question answer ≠ [] ∧
    (∀ q2 a2 : String, question = q2 → answer = a2 →
        categorize_qa_pair question answer = categorize_qa_pair q2 a2) ∧
    (noKeywordMatch question answer = true →
        categorize_qa_pair question answer = ["general"]) := by
  refine ⟨?_, ?_, ?_⟩
  · unfold categorize_qa_pair
    dsimp only
    exact ite_default_ne_nil _
  · intro q2 a2 hq ha
    rw [hq, ha]
  · intro h
    unfold noKeywordMatch at h
    simp only [Bool.and_eq_true, Bool.not_eq_true'] at h
    obtain ⟨⟨⟨⟨⟨h1, h2⟩, h3⟩, h4⟩, h5⟩, h6⟩ := h
    unfold categorize_qa_pair
    simp [h1, h2, h3, h4, h5, h6]

/-- Witness for C9 at a concrete input: a text matching no vocabulary is
categorized as exactly the general tag, and the category list is
nonempty. -/
theorem c9_categorization_witness :
    categorize_qa_pair "Why is the sky blue?" "Rayleigh scattering of sunlight." ≠ [] ∧
    categorize_qa_pair "Why is the sky blue?" "Rayleigh scattering of sunlight."
      = ["general"] :=
  ⟨(c9_categorization_deterministic_nonempty "Why is the sky blue?"
      "Rayleigh scattering of sunlight.").1,
   (c9_categorization_deterministic_nonempty "Why is the sky blue?"
      "Rayleigh scattering of sunlight.").2.2 (by decide)⟩

/-! ## Validation rejection -/

theorem pyStrip_length_le (s : String) : (pyStrip s).length ≤ s.length := by
  show ((((s.toList.dropWhile pyWhitespace).reverse.dropWhile pyWhitespace).reverse)).length
      ≤ s.toList.length
  rw [List.length_reverse]
  calc ((s.toList.dropWhile pyWhitespace).reverse.dropWhile pyWhitespace).length
      ≤ (s.toList.dropWhile pyWhitespace).reverse.length :=
        (List.dropWhile_sublist pyWhitespace).length_le
    _ = (s.toList.dropWhile pyWhitespace).length := List.length_reverse _
    _ ≤ s.toList.length := (List.dropWhile_sublist pyWhitespace).length_le

theorem specRejected_not_valid {c : Cand} (h : specRejected c = true) :
    validate_qa_pair c = false := by
  cases c with
  | notDict => rfl
  | mk q a src =>
    rcases q with _ | q
    · rfl
    · rcases a with _ | a
      · cases q <;> rfl
      · cases q with
        | vother => cases a <;> rfl
        | vstr qs =>
          cases a with
          | vother => rfl
          | vstr ans =>
            simp only [specRejected, Bool.or_eq_true, decide_eq_true_eq] at h
            rcases h with ((h | h) | h5) | h10
            · cases h
            · cases h
            · have hlt : (pyStrip qs).length < 5 :=
                lt_of_le_of_lt (pyStrip_length_le qs) h5
              simp [validate_qa_pair, Nat.not_le.mpr hlt]
            · have hlt : (pyStrip ans).length < 10 :=
                lt_of_le_of_lt (pyStrip_length_le ans) h10
              simp [validate_qa_pair, Nat.not_le.mpr hlt]

/-- C6: a payload record missing the question or answer field, or with
question text shorter than 5 characters or answer text shorter than 10,
fails validation, contributes nothing to the durable list or the index
(the applied records are exactly the enrichments of the validated
sublist, which excludes it), and does not fail the batch when another
record of the same payload is valid. -/
theorem c6_validation_rejection (md5 : String → String) (now : String) (wOk : Bool)
    (st : LearnState) (cs : List Cand) (c : Cand) (_hmem : c ∈ cs)
    (hbad : specRejected c = true) :
    validate_qa_pair c = false ∧
    c ∉ cs.filter validate_qa_pair ∧
    ((∃ c2 ∈ cs, validate_qa_pair c2 = true) →
        (ingest_qa_json md5 now wOk st (Payload.list cs)).1 = true ∧
        (ingest_qa_json md5 now wOk st (Payload.list cs)).2.learned_qa_pairs =
          st.learned_qa_pairs ++
            (cs.filter validate_qa_pair).map (enrich_qa_pair md5 now) ∧
        (ingest_qa_json md5 now wOk st (Payload.list cs)).2.chroma =
          ((cs.filter validate_qa_pair).map (enrich_qa_pair md5 now)).foldl
            (fun s q => upsertKV s q.question_hash ⟨q.question, chromaMetaOf q⟩)
            st.chroma) := by
  have hval := specRejected_not_valid hbad
  refine ⟨hval, ?_, ?_⟩
  · intro hin
    rw [List.mem_filter] at hin
    rw [hval] at hin
    exact absurd hin.2 (by simp)
  · intro hex
    have hne : cs.filter validate_qa_pair ≠ [] := by
      rcases hex with ⟨c2, hc2, hv2⟩
      intro hnil
      have : c2 ∈ cs.filter validate_qa_pair := List.mem_filter.mpr ⟨hc2, hv2⟩
      rw [hnil] at this
      cases this
    have hspec := (c3_failure_condition md5 now wOk st (Payload.list cs)).2
    have hcands : candidatesOf (Payload.list cs) = cs := rfl
    rw [hcands] at hspec
    exact hspec hne

/-- Witness for C6 at a concrete input: a record with a 3-character
question is rejected while the batch containing a valid record still
succeeds. -/
theorem c6_validation_rejection_witness :
    validate_qa_pair (Cand.mk (some (.vstr "abc")) (some (.vstr "long enough answer")) none)
        = false ∧
    (ingest_qa_json (fun s => s) "t" true LearnState.init
        (Payload.list [Cand.mk (some (.vstr "abc")) (some (.vstr "long enough answer")) none,
          Cand.mk (some (.vstr "What is HEA about?")) (some (.vstr "Human error avoidance.")) none])).1
      = true := by
  have h := c6_validation_rejection (fun s => s) "t" true LearnState.init
    [Cand.mk (some (.vstr "abc")) (some (.vstr "long enough answer")) none,
      Cand.mk (some (.vstr "What is HEA about?")) (some (.vstr "Human error avoidance.")) none]
    (Cand.mk (some (.vstr "abc")) (some (.vstr "long enough answer")) none)
    (by decide) (by decide)
  exact ⟨h.1, (h.2.2 ⟨Cand.mk (some (.vstr "What is HEA about?"))
    (some (.vstr "Human error avoidance.")) none, by decide, by decide⟩).1⟩

/-! ## Upsert id lemmas -/

theorem upsertKV_ids_of_not_mem {α : Type} {store : List (String × α)} {k : String}
    (v : α) (h : k ∉ store.map Prod.fst) :
    (upsertKV store k v).map Prod.fst = store.map Prod.fst ++ [k] := by
  unfold upsertKV
  rw [if_neg, List.map_append]
  · rfl
  · intro hany
    rcases List.any_eq_true.mp hany with ⟨kv, hkv, hbeq⟩
    exact h (List.mem_map.mpr ⟨kv, hkv, by simpa using hbeq⟩)

theorem upsertKV_ids_of_mem {α : Type} {store : List (String × α)} {k : String}
    (v : α) (h : k ∈ store.map Prod.fst) :
    (upsertKV store k v).map Prod.fst = store.map Prod.fst := by
  unfold upsertKV
  rw [if_pos]
  · rw [List.map_map]
    apply List.map_congr_left
    intro kv _
    by_cases hb : kv.1 == k
    · simp only [Function.comp_apply, if_pos hb]
      exact (beq_iff_eq.mp hb).symm
    · simp only [Function.comp_apply, if_neg hb]
  · rcases List.mem_map.mp h with ⟨kv, hkv, hfst⟩
    exact List.any_eq_true.mpr ⟨kv, hkv, by simp [hfst]⟩

/-! ## Re-ingestion of identical question text -/

theorem ingest_single_valid (md5 : String → String) (now : String) (st : LearnState)
    {q a : String} {src : Option String}
    (hv : validate_qa_pair (Cand.mk (some (.vstr q)) (some (.vstr a)) src) = true) :
    ingest_qa_json md5 now true st (Payload.singleDict (.vstr q) (.vstr a) src) =
      (true,
        { learned_qa_pairs :=
            st.learned_qa_pairs ++
              [enrich_qa_pair md5 now (Cand.mk (some (.vstr q)) (some (.vstr a)) src)]
          disk :=
            st.learned_qa_pairs ++
              [enrich_qa_pair md5 now (Cand.mk (some (.vstr q)) (some (.vstr a)) src)]
          chroma := upsertKV st.chroma (md5 q)
            ⟨q, chromaMetaOf
              (enrich_qa_pair md5 now (Cand.mk (some (.vstr q)) (some (.vstr a)) src))⟩ }) := by
  rw [ingest_eq_ingestPairs]
  have hfil : (candidatesOf (Payload.singleDict (.vstr q) (.vstr a) src)).filter
      validate_qa_pair = [Cand.mk (some (.vstr q)) (some (.vstr a)) src] := by
    show List.filter validate_qa_pair [Cand.mk (some (.vstr q)) (some (.vstr a)) src] = _
    simp [List.filter_cons, hv]
  have hne : (candidatesOf (Payload.singleDict (.vstr q) (.vstr a) src)).filter
      validate_qa_pair ≠ [] := by
    rw [hfil]
    simp
  rw [ingestPairs_of_some_valid hne, hfil]
  rfl

/-- C1 counterexample: ingesting the same valid record twice yields TWO
entries in the durable list, both carrying the same questionId, refuting
the claim that re-ingesting byte-identical question text leaves exactly
one entry with unique questionId values (the digest is instantiated with a
concrete stand-in function; the list length never consults it). -/
theorem c1_counterexample :
    (reingest (fun s => s) "t1" "t2" LearnState.init
        (Payload.singleDict (.vstr "What caused the Q1 outage?")
          (.vstr "A misconfigured failover script caused a 40-minute outage.")
          none)).disk.length = 2 ∧
    (reingest (fun s => s) "t1" "t2" LearnState.init
        (Payload.singleDict (.vstr "What caused the Q1 outage?")
          (.vstr "A misconfigured failover script caused a 40-minute outage.")
          none)).disk.map (fun p => p.question_hash) =
      ["What caused the Q1 outage?", "What caused the Q1 outage?"] := by
  constructor <;> decide

/-- C1 (amended): for every valid record, calling ingest twice with
byte-identical question text appends TWO entries to the durable list (the
list does not deduplicate), both entries carry the same questionId (the
digest of the question text), and the id-keyed index gains only a single
entry for that questionId. -/
theorem c1_amended_reingest_appends (md5 : String → String) (n1 n2 : String)
    (st : LearnState) (q a : String) (src : Option String)
    (hv : validate_qa_pair (Cand.mk (some (.vstr q)) (some (.vstr a)) src) = true) :
    (ingest_qa_json md5 n1 true st (Payload.singleDict (.vstr q) (.vstr a) src)).1
        = true ∧
    (ingest_qa_json md5 n2 true
        (ingest_qa_json md5 n1 true st (Payload.singleDict (.vstr q) (.vstr a) src)).2
        (Payload.singleDict (.vstr q) (.vstr a) src)).1 = true ∧
    (reingest md5 n1 n2 st (Payload.singleDict (.vstr q) (.vstr a) src)).learned_qa_pairs
      = st.learned_qa_pairs ++
          [enrich_qa_pair md5 n1 (Cand.mk (some (.vstr q)) (some (.vstr a)) src),
            enrich_qa_pair md5 n2 (Cand.mk (some (.vstr q)) (some (.vstr a)) src)] ∧
    (reingest md5 n1 n2 st (Payload.singleDict (.vstr q) (.vstr a) src)).disk
      = (reingest md5 n1 n2 st (Payload.singleDict (.vstr q) (.vstr a) src)).learned_qa_pairs ∧
    (enrich_qa_pair md5 n1 (Cand.mk (some (.vstr q)) (some (.vstr a)) src)).question_hash
      = (enrich_qa_pair md5 n2 (Cand.mk (some (.vstr q)) (some (.vstr a)) src)).question_hash ∧
    (md5 q ∉ st.chroma.map Prod.fst →
      (reingest md5 n1 n2 st (Payload.singleDict (.vstr q) (.vstr a) src)).chroma.map
          Prod.fst
        = st.chroma.map Prod.fst ++ [md5 q]) := by
  have H1 := ingest_single_valid md5 n1 st hv
  refine ⟨by rw [H1], ?_, ?_, ?_, rfl, ?_⟩
  · rw [H1]
    rw [ingest_single_valid md5 n2 _ hv]
  · rw [reingest, H1]
    rw [ingest_single_valid md5 n2 _ hv]
    simp
  · rw [reingest, H1]
    rw [ingest_single_valid md5 n2 _ hv]
  · intro hfresh
    rw [reingest, H1]
    rw [ingest_single_valid md5 n2 _ hv]
    show (upsertKV (upsertKV st.chroma (md5 q) _) (md5 q) _).map Prod.fst = _
    have hin : md5 q ∈ (upsertKV st.chroma (md5 q)
        ⟨q, chromaMetaOf
          (enrich_qa_pair md5 n1 (Cand.mk (some (.vstr q)) (some (.vstr a)) src))⟩).map
        Prod.fst := by
      rw [upsertKV_ids_of_not_mem _ hfresh]
      simp
    rw [upsertKV_ids_of_mem _ hin, upsertKV_ids_of_not_mem _ hfresh]

/-- Witness for the amended C1 at a concrete valid record: re-ingestion
appends exactly the two enriched copies. -/
theorem c1_amended_reingest_appends_witness :
    (reingest (fun s => s) "t1" "t2" LearnState.init
        (Payload.singleDict (.vstr "What caused the Q1 outage?")
          (.vstr "A misconfigured failover script caused a 40-minute outage.")
          none)).learned_qa_pairs =
      [enrich_qa_pair (fun s => s) "t1"
          (Cand.mk (some (.vstr "What caused the Q1 outage?"))
            (some (.vstr "A misconfigured failover script caused a 40-minute outage.")) none),
        enrich_qa_pair (fun s => s) "t2"
          (Cand.mk (some (.vstr "What caused the Q1 outage?"))
            (some (.vstr "A misconfigured failover script caused a 40-minute outage.")) none)] := by
  have h := c1_amended_reingest_appends (fun s => s) "t1" "t2" LearnState.init
    "What caused the Q1 outage?"
    "A misconfigured failover script caused a 40-minute outage." none (by decide)
  simpa using h.2.2.1

/-! ## Interaction learning -/

theorem ingest_interaction_short {md5 : String → String} {now : String} {wOk : Bool}
    {ls : LearnState} {i : Interaction} (h : i.bot_response.length < 10) :
    ingest_qa_json md5 now wOk ls (interactionPayload i) = (false, ls) := by
  rw [ingest_eq_ingestPairs]
  apply ingestPairs_of_none_valid
  have hlt : (pyStrip i.bot_response).length < 10 :=
    lt_of_le_of_lt (pyStrip_length_le _) h
  have hval : validate_qa_pair
      (Cand.mk (some (.vstr i.user_query)) (some (.vstr i.bot_response))
        (some "chat_interaction")) = false := by
    simp [validate_qa_pair, Nat.not_le.mpr hlt]
  show List.filter validate_qa_pair
    [Cand.mk (some (.vstr i.user_query)) (some (.vstr i.bot_response))
      (some "chat_interaction")] = []
  simp [List.filter_cons, hval]

theorem pci_length (md5 : String → String) (now : String) (wOk : Bool) :
    ∀ (ints : List Interaction) (ls : LearnState),
      (process_chat_interactions md5 now wOk ls ints).2.length = ints.length := by
  intro ints
  induction ints with
  | nil => intro ls; rfl
  | cons hd tl ih =>
    intro ls
    by_cases hp : hd.processed
    · simp [process_chat_interactions, hp, ih]
    · simp [process_chat_interactions, hp, ih]

theorem pci_get_processed (md5 : String → String) (now : String) (wOk : Bool) :
    ∀ (ints : List Interaction) (ls : LearnState) (j : Nat) (i : Interaction),
      ints[j]? = some i → i.processed = true →
      (process_chat_interactions md5 now wOk ls ints).2[j]? = some i := by
  intro ints
  induction ints with
  | nil => intro ls j i hj; cases hj
  | cons hd tl ih =>
    intro ls j i hj hp
    cases j with
    | zero =>
      rw [List.getElem?_cons_zero] at hj
      cases hj
      simp [process_chat_interactions, hp]
    | succ j =>
      rw [List.getElem?_cons_succ] at hj
      by_cases hph : hd.processed = true
      · simp only [process_chat_interactions, if_pos hph, List.getElem?_cons_succ]
        exact ih ls j i hj hp
      · simp only [process_chat_interactions, if_neg hph, List.getElem?_cons_succ]
        exact ih _ j i hj hp

theorem pci_get_short (md5 : String → String) (now : String) (wOk : Bool) :
    ∀ (ints : List Interaction) (ls : LearnState) (j : Nat) (i : Interaction),
      ints[j]? = some i → i.processed = false → i.bot_response.length < 10 →
      (process_chat_interactions md5 now wOk ls ints).2[j]? = some i := by
  intro ints
  induction ints with
  | nil => intro ls j i hj; cases hj
  | cons hd tl ih =>
    intro ls j i hj hp hlen
    cases j with
    | zero =>
      rw [List.getElem?_cons_zero] at hj
      cases hj
      have hres := @ingest_interaction_short md5 now wOk ls hd hlen
      simp [process_chat_interactions, hp, hres]
    | succ j =>
      rw [List.getElem?_cons_succ] at hj
      by_cases hph : hd.processed = true
      · simp only [process_chat_interactions, if_pos hph, List.getElem?_cons_succ]
        exact ih ls j i hj hp hlen
      · simp only [process_chat_interactions, if_neg hph, List.getElem?_cons_succ]
        exact ih _ j i hj hp hlen

theorem pci_skip_processed (md5 : String → String) (now : String) (wOk : Bool) :
    ∀ (ints : List Interaction) (ls : LearnState),
      (process_chat_interactions md5 now wOk ls ints).1 =
        (process_chat_interactions md5 now wOk ls
          (ints.filter (fun i => !i.processed))).1 := by
  intro ints
  induction ints with
  | nil => intro ls; rfl
  | cons hd tl ih =>
    intro ls
    by_cases hp : hd.processed = true
    · rw [List.filter_cons]
      simp only [hp, Bool.not_true, if_neg (by simp : ¬(false = true))]
      simp only [process_chat_interactions, if_pos hp]
      exact ih ls
    · have hp' : hd.processed = false := by simpa using hp
      rw [List.filter_cons]
      simp only [hp', Bool.not_false, if_pos rfl]
      simp only [process_chat_interactions, if_neg hp]
      exact ih _

/-- C7: the hourly interaction-learning job keeps the log length, passes
already-processed records through unchanged (and its learning-state effect
comes solely from the unprocessed records, so processed records are not
re-ingested), and an unprocessed interaction whose response is shorter
than 10 characters fails ingest validation, stays processed = false, and
is therefore selected again on the next run. -/
theorem c7_interaction_processed_flag (md5 : String → String) (now : String) (wOk : Bool)
    (ls : LearnState) (ints : List Interaction) :
    (process_chat_interactions md5 now wOk ls ints).2.length = ints.length ∧
    (∀ (j : Nat) (i : Interaction), ints[j]? = some i → i.processed = true →
        (process_chat_interactions md5 now wOk ls ints).2[j]? = some i) ∧
    (∀ (j : Nat) (i : Interaction), ints[j]? = some i → i.processed = false →
        i.bot_response.length < 10 →
        (process_chat_interactions md5 now wOk ls ints).2[j]? = some i) ∧
    (process_chat_interactions md5 now wOk ls ints).1 =
      (process_chat_interactions md5 now wOk ls
        (ints.filter (fun i => !i.processed))).1 :=
  ⟨pci_length md5 now wOk ints ls,
   fun j i hj hp => pci_get_processed md5 now wOk ints ls j i hj hp,
   fun j i hj hp hlen => pci_get_short md5 now wOk ints ls j i hj hp hlen,
   pci_skip_processed md5 now wOk ints ls⟩

/-- Witness for C7 at a concrete log: the processed record and the
short-response record both come out unchanged. -/
theorem c7_interaction_processed_flag_witness :
    (process_chat_interactions (fun s => s) "t1" true LearnState.init
        [demoDone, demoShort]).2[0]? = some demoDone ∧
    (process_chat_interactions (fun s => s) "t1" true LearnState.init
        [demoDone, demoShort]).2[1]? = some demoShort := by
  have h := c7_interaction_processed_flag (fun s => s) "t1" true LearnState.init
    [demoDone, demoShort]
  exact ⟨h.2.1 0 demoDone (by decide) (by decide),
    h.2.2.1 1 demoShort (by decide) (by decide) (by decide)⟩

/-! ## Row ids of the ingestion adapter -/

theorem digitChar_ne_underscore {k : Nat} (h : k < 10) : Nat.digitChar k ≠ '_' := by
  interval_cases k <;> decide

theorem toDigitsCore_ne_underscore :
    ∀ (fuel n : Nat) (ds : List Char), (∀ c ∈ ds, c ≠ '_') →
      ∀ c ∈ Nat.toDigitsCore 10 fuel n ds, c ≠ '_' := by
  intro fuel
  induction fuel with
  | zero => intro n ds hds c hc; exact hds c hc
  | succ fuel ih =>
    intro n ds hds c hc
    rw [Nat.toDigitsCore] at hc
    have hd : ∀ c2 ∈ (Nat.digitChar (n % 10) :: ds), c2 ≠ '_' := by
      intro c2 hc2
      rcases List.mem_cons.mp hc2 with rfl | hc2
      · exact digitChar_ne_underscore (Nat.mod_lt _ (by norm_num))
      · exact hds c2 hc2
    by_cases hz : n / 10 = 0
    · rw [if_pos hz] at hc
      exact hd c hc
    · rw [if_neg hz] at hc
      exact ih (n / 10) _ hd c hc

theorem repr_ne_underscore (n : Nat) : '_' ∉ (Nat.repr n).toList := by
  intro hmem
  have hall : ∀ c ∈ Nat.toDigits 10 n, c ≠ '_' :=
    toDigitsCore_ne_underscore (n + 1) n [] (by intro c hc; cases hc)
  have heq : (Nat.repr n).toList = Nat.toDigits 10 n := rfl
  rw [heq] at hmem
  exact hall _ hmem rfl

theorem append_underscore_cancel :
    ∀ (b1 b2 a1 a2 : List Char), '_' ∉ b1 → '_' ∉ b2 →
      b1 ++ '_' :: a1 = b2 ++ '_' :: a2 → b1 = b2 ∧ a1 = a2 := by
  intro b1
  induction b1 with
  | nil =>
    intro b2 a1 a2 h1 h2 heq
    cases b2 with
    | nil =>
      simp only [List.nil_append, List.cons.injEq, true_and] at heq
      exact ⟨rfl, heq⟩
    | cons c t =>
      simp only [List.nil_append, List.cons_append, List.cons.injEq] at heq
      exact absurd (heq.1 ▸ List.mem_cons_self c t) h2
  | cons c1 t1 ih =>
    intro b2 a1 a2 h1 h2 heq
    cases b2 with
    | nil =>
      simp only [List.cons_append, List.nil_append, List.cons.injEq] at heq
      exact absurd (heq.1 ▸ List.mem_cons_self c1 t1) h1
    | cons c2 t2 =>
      simp only [List.cons_append, List.cons.injEq] at heq
      have hih := ih t2 a1 a2 (fun hm => h1 (List.mem_cons_of_mem c1 hm))
        (fun hm => h2 (List.mem_cons_of_mem c2 hm)) heq.2
      exact ⟨by rw [heq.1, hih.1], hih.2⟩

theorem string_data_append (s t : String) : (s ++ t).data = s.data ++ t.data := rfl

theorem makeRowId_ne_of_sanitize_ne {n1 n2 : String} (i1 i2 : Nat)
    (h : sanitizeName n1 ≠ sanitizeName n2) :
    makeRowId n1 i1 ≠ makeRowId n2 i2 := by
  intro heq
  apply h
  have hdata : ("excel_".data ++ (sanitizeName n1).data) ++ '_' :: (Nat.repr i1).data =
      ("excel_".data ++ (sanitizeName n2).data) ++ '_' :: (Nat.repr i2).data := by
    have h1 : (makeRowId n1 i1).data =
        (("excel_".data ++ (sanitizeName n1).data) ++ '_' :: (Nat.repr i1).data) := by
      show ("excel_" ++ sanitizeName n1 ++ "_" ++ Nat.repr i1).data = _
      rw [string_data_append, string_data_append, string_data_append]
      simp
    have h2 : (makeRowId n2 i2).data =
        (("excel_".data ++ (sanitizeName n2).data) ++ '_' :: (Nat.repr i2).data) := by
      show ("excel_" ++ sanitizeName n2 ++ "_" ++ Nat.repr i2).data = _
      rw [string_data_append, string_data_append, string_data_append]
      simp
    rw [← h1, ← h2, heq]
  have hrev : (Nat.repr i1).data.reverse ++ '_' ::
        ("excel_".data ++ (sanitizeName n1).data).reverse =
      (Nat.repr i2).data.reverse ++ '_' ::
        ("excel_".data ++ (sanitizeName n2).data).reverse := by
    have := congrArg List.reverse hdata
    simpa [List.reverse_append] using this
  have hcancel := append_underscore_cancel _ _ _ _
    (fun hm => repr_ne_underscore i1 (List.mem_reverse.mp hm))
    (fun hm => repr_ne_underscore i2 (List.mem_reverse.mp hm)) hrev
  have hpre : "excel_".data ++ (sanitizeName n1).data =
      "excel_".data ++ (sanitizeName n2).data := by
    have := congrArg List.reverse hcancel.2
    simpa using this
  have hsan : (sanitizeName n1).data = (sanitizeName n2).data :=
    List.append_cancel_left hpre
  cases hs1 : sanitizeName n1 with
  | mk d1 =>
    cases hs2 : sanitizeName n2 with
    | mk d2 =>
      rw [hs1, hs2] at hsan
      simpa using congrArg String.mk hsan

theorem mem_ids_upsertKV_self {α : Type} (store : List (String × α)) (k : String) (v : α) :
    k ∈ (upsertKV store k v).map Prod.fst := by
  by_cases h : k ∈ store.map Prod.fst
  · rw [upsertKV_ids_of_mem v h]; exact h
  · rw [upsertKV_ids_of_not_mem v h]; simp

theorem mem_ids_upsertKV_of_mem {α : Type} {store : List (String × α)} {k2 : String}
    (k : String) (v : α) (h : k2 ∈ store.map Prod.fst) :
    k2 ∈ (upsertKV store k v).map Prod.fst := by
  by_cases hm : k ∈ store.map Prod.fst
  · rw [upsertKV_ids_of_mem v hm]; exact h
  · rw [upsertKV_ids_of_not_mem v hm]; exact List.mem_append_left _ h

theorem commitRows_mem_ids (fileName now : String) :
    ∀ (rows : List (List (String × Option String))) (i : Nat)
      (store : List (String × HeEntry)) (k : String),
      k ∈ store.map Prod.fst →
      k ∈ (commitRows fileName now i rows store).map Prod.fst := by
  intro rows
  induction rows with
  | nil => intro i store k h; exact h
  | cons r rs ih =>
    intro i store k h
    exact ih (i + 1) _ k (mem_ids_upsertKV_of_mem _ _ h)

theorem commitRows_ids_covered (fileName now : String) :
    ∀ (rows : List (List (String × Option String))) (i : Nat)
      (store : List (String × HeEntry)) (j : Nat), j < rows.length →
      makeRowId fileName (i + j) ∈ (commitRows fileName now i rows store).map Prod.fst := by
  intro rows
  induction rows with
  | nil => intro i store j hj; exact absurd hj (by simp)
  | cons r rs ih =>
    intro i store j hj
    cases j with
    | zero =>
      show makeRowId fileName (i + 0) ∈ _
      rw [Nat.add_zero]
      exact commitRows_mem_ids fileName now rs (i + 1) _ _
        (mem_ids_upsertKV_self _ _ _)
    | succ j =>
      have hstep : i + (j + 1) = (i + 1) + j := by omega
      rw [hstep]
      exact ih (i + 1) _ j (Nat.lt_of_succ_lt_succ hj)

theorem commitRows_ids_of_covered (fileName now2 : String) :
    ∀ (rows : List (List (String × Option String))) (i : Nat)
      (store : List (String × HeEntry)),
      (∀ j, j < rows.length → makeRowId fileName (i + j) ∈ store.map Prod.fst) →
      (commitRows fileName now2 i rows store).map Prod.fst = store.map Prod.fst := by
  intro rows
  induction rows with
  | nil => intro i store _; rfl
  | cons r rs ih =>
    intro i store hcov
    have h0 : makeRowId fileName i ∈ store.map Prod.fst := by
      have := hcov 0 (by simp)
      rwa [Nat.add_zero] at this
    have hupeq := upsertKV_ids_of_mem
      (⟨rowDoc r, rowMeta fileName now2 r⟩ : HeEntry) h0
    have hcov2 : ∀ j, j < rs.length →
        makeRowId fileName ((i + 1) + j) ∈
          (upsertKV store (makeRowId fileName i)
            ⟨rowDoc r, rowMeta fileName now2 r⟩).map Prod.fst := by
      intro j hj
      rw [hupeq]
      have hstep : (i + 1) + j = i + (j + 1) := by omega
      rw [hstep]
      exact hcov (j + 1) (by simp only [List.length_cons]; omega)
    show (commitRows fileName now2 (i + 1) rs _).map Prod.fst = _
    rw [ih (i + 1) _ hcov2, hupeq]

/-- C8 counterexample: the files data.1.xlsx and data_1.xlsx are distinct,
yet their sanitized names collide, so their rows share ids: loading one
identical row from each file leaves a single index entry, refuting that
two identical rows from different files are always distinct documents. -/
theorem c8_counterexample :
    makeRowId "data.1.xlsx" 0 = makeRowId "data_1.xlsx" 0 ∧
    "data.1.xlsx" ≠ "data_1.xlsx" ∧
    ((load_excel_to_chroma "t2"
        (load_excel_to_chroma "t1"
          ⟨[], [], [], 0, LearnState.init, []⟩
          ⟨"data.1.xlsx", 2, true, [[("col", some "v")]]⟩).2
        ⟨"data_1.xlsx", 1, true, [[("col", some "v")]]⟩).2.heStore.length = 1) := by
  refine ⟨by decide, by decide, by decide⟩

/-- C8 (amended): the row id is the stable function of sanitized source
file name (dots replaced by underscores) plus row index; rows from files
whose sanitized names differ get distinct ids (identical rows included),
and re-running the load on the same file leaves the set of index ids
unchanged: each row id is overwritten, not duplicated.  Files whose names
differ only in dots versus underscores collide, as the counterexample
shows. -/
theorem c8_amended_row_ids (n1 n2 : String) (i1 i2 : Nat)
    (hsan : sanitizeName n1 ≠ sanitizeName n2) (now1 now2 : String)
    (rows : List (List (String × Option String)))
    (store : List (String × HeEntry)) :
    makeRowId n1 i1 ≠ makeRowId n2 i2 ∧
    (commitRows n1 now2 0 rows (commitRows n1 now1 0 rows store)).map Prod.fst =
      (commitRows n1 now1 0 rows store).map Prod.fst := by
  refine ⟨makeRowId_ne_of_sanitize_ne i1 i2 hsan, ?_⟩
  apply commitRows_ids_of_covered
  intro j hj
  simpa using commitRows_ids_covered n1 now1 rows 0 store j hj

/-- Witness for the amended C8 at concrete inputs. -/
theorem c8_amended_row_ids_witness :
    makeRowId "alpha.xlsx" 0 ≠ makeRowId "beta.xlsx" 0 ∧
    (commitRows "alpha.xlsx" "t2" 0 [[("col", some "v")]]
        (commitRows "alpha.xlsx" "t1" 0 [[("col", some "v")]] [])).map Prod.fst =
      (commitRows "alpha.xlsx" "t1" 0 [[("col", some "v")]] []).map Prod.fst :=
  c8_amended_row_ids "alpha.xlsx" "beta.xlsx" 0 0 (by decide) "t1" "t2"
    [[("col", some "v")]] []

/-! ## Backup cleanup frame property -/

/-- C10: cleanup_old_backups deletes only plain files directly under the
backup folder: every directory node survives any cleanup with its contents
intact (the scan is non-recursive, so nothing inside a directory is
touched), anything removed is a top-level plain file older than the
cutoff, and in particular the timestamped snapshot directory written by
backup_chroma_db is never deleted regardless of age. -/
theorem c10_cleanup_frame (days nowT : Int) (nodes : List FsNode) :
    (∀ (nm : String) (m : Int) (cs : List (String × Int)),
        FsNode.dir nm m cs ∈ nodes →
        FsNode.dir nm m cs ∈ cleanup_old_backups days nowT nodes) ∧
    (∀ n ∈ nodes, n ∉ cleanup_old_backups days nowT nodes →
        ∃ (nm : String) (m : Int), n = FsNode.file nm m ∧ m < nowT - days * 86400) ∧
    (∀ (now : String) (snapT cleanT days2 : Int) (st : SchedState),
        FsNode.dir ("chroma_backup_" ++ now) snapT [] ∈
          cleanup_old_backups days2 cleanT (backup_chroma_db now snapT st).backupNodes) := by
  refine ⟨?_, ?_, ?_⟩
  · intro nm m cs hmem
    exact List.mem_filter.mpr ⟨hmem, rfl⟩
  · intro n hmem hnot
    cases n with
    | file nm m =>
      refine ⟨nm, m, rfl, ?_⟩
      by_contra hge
      apply hnot
      apply List.mem_filter.mpr
      refine ⟨hmem, ?_⟩
      show (!decide (m < nowT - days * 86400)) = true
      simp [hge]
    | dir nm m cs =>
      exact absurd (List.mem_filter.mpr ⟨hmem, rfl⟩) hnot
  · intro now snapT cleanT days2 st
    apply List.mem_filter.mpr
    refine ⟨?_, rfl⟩
    show _ ∈ st.backupNodes ++ [FsNode.dir ("chroma_backup_" ++ now) snapT []]
    simp

/-- Witness for C10 at a concrete backup folder: under a 30-day retention
at a late clock the aged snapshot directory survives while the aged plain
file is identified as the only kind of node removed. -/
theorem c10_cleanup_frame_witness :
    FsNode.dir "chroma_backup_20240101" 0 [("chroma.sqlite3", 0)] ∈
      cleanup_old_backups 30 2600000 [oldFileNode, snapDirNode] ∧
    ∃ (nm : String) (m : Int), oldFileNode = FsNode.file nm m ∧ m < 2600000 - 30 * 86400 :=
  ⟨(c10_cleanup_frame 30 2600000 [oldFileNode, snapDirNode]).1 _ _ _ (by decide),
   (c10_cleanup_frame 30 2600000 [oldFileNode, snapDirNode]).2.1 oldFileNode
     (by decide) (by decide)⟩

/-! ## Daily ingestion job -/

theorem load_excel_ok {now : String} {st : SchedState} {f : ExcelFile}
    (h : f.parseOk = true) :
    (load_excel_to_chroma now st f).2 =
      { st with heStore := commitRows f.name now 0 f.rows st.heStore } := by
  unfold load_excel_to_chroma
  rw [if_pos h]

theorem load_excel_bad {now : String} {st : SchedState} {f : ExcelFile}
    (h : f.parseOk = false) :
    (load_excel_to_chroma now st f).2 = { st with srcErrors := st.srcErrors + 1 } := by
  unfold load_excel_to_chroma
  rw [if_neg (by simp [h])]

/-- C2 (amended): for an inbox whose discovery yields three files with the
second malformed, the daily job commits the rows of files 1 and 3, logs
exactly one source-read error, archives ALL three files - including the
malformed second one, which therefore does NOT stay in the inbox - and
lets no exception escape (the job is a total function). -/
theorem c2_amended_daily_job (md5 : String → String) (now : String) (nowT : Int)
    (wOk : Bool) (st : SchedState) (f1 f2 f3 : ExcelFile)
    (hfind : find_excel_files st.inbox = [f1, f2, f3])
    (hinbox : st.inbox = [f1, f2, f3])
    (h1 : f1.parseOk = true) (h2 : f2.parseOk = false) (h3 : f3.parseOk = true)
    (h12 : f1.name ≠ f2.name) (h13 : f1.name ≠ f3.name) (h23 : f2.name ≠ f3.name) :
    (daily_data_load_job md5 now nowT wOk st).inbox = [] ∧
    (daily_data_load_job md5 now nowT wOk st).srcErrors = st.srcErrors + 1 ∧
    (daily_data_load_job md5 now nowT wOk st).heStore =
      commitRows f3.name now 0 f3.rows
        (commitRows f1.name now 0 f1.rows st.heStore) ∧
    (daily_data_load_job md5 now nowT wOk st).backupNodes =
      st.backupNodes ++ [FsNode.dir ("chroma_backup_" ++ now) nowT [],
        FsNode.file ((splitExt f1.name).1 ++ "_processed_" ++ now ++ (splitExt f1.name).2) nowT,
        FsNode.file ((splitExt f2.name).1 ++ "_processed_" ++ now ++ (splitExt f2.name).2) nowT,
        FsNode.file ((splitExt f3.name).1 ++ "_processed_" ++ now ++ (splitExt f3.name).2) nowT] := by
  unfold daily_data_load_job
  rw [hfind]
  simp only [List.isEmpty_cons, Bool.false_eq_true, if_false, List.foldl_cons,
    List.foldl_nil]
  rw [load_excel_ok h1, load_excel_bad h2, load_excel_ok h3]
  unfold archive_processed_file backup_chroma_db process_chat_interactions_sched
  refine ⟨?_, rfl, rfl, ?_⟩
  · dsimp only
    rw [hinbox]
    simp [List.filter_cons, List.filter_nil, Ne.symm h12, Ne.symm h13, Ne.symm h23]
  · dsimp only
    simp [List.append_assoc]

/-- C2 counterexample: with three inbox files whose second is malformed,
the daily job does NOT leave file 2 in the inbox - the inbox ends empty
and the malformed file is archived into the backup folder, refuting the
claimed not-archived behaviour. -/
theorem c2_counterexample :
    (daily_data_load_job (fun s => s) "ts" 100 true inboxState).inbox = [] ∧
    FsNode.file "beta_processed_ts.xlsx" 100 ∈
      (daily_data_load_job (fun s => s) "ts" 100 true inboxState).backupNodes := by
  constructor <;> decide

/-- Witness for the amended C2 at the concrete three-file inbox. -/
theorem c2_amended_daily_job_witness :
    (daily_data_load_job (fun s => s) "ts" 100 true inboxState).inbox = [] ∧
    (daily_data_load_job (fun s => s) "ts" 100 true inboxState).srcErrors =
      inboxState.srcErrors + 1 := by
  have h := c2_amended_daily_job (fun s => s) "ts" 100 true inboxState fileA fileB fileC
    (by decide) (by decide) (by decide) (by decide) (by decide)
    (by decide) (by decide) (by decide)
  exact ⟨h.1, h.2.1⟩
